import Mathlib

/-!
Shallow embedding of the item-store access layer (`src/dynamo.js`) and the
HTTP resource handlers (`src/index.js`) of the node-eks-db project, together
with a model of the DynamoDB document-client operations they invoke
(`GetCommand`, `PutCommand`, `UpdateCommand`, `DeleteCommand`), keyed by the
string partition key `id` declared in `cdk/lib/infra-stack.js`.
-/

/-- JSON-compatible attribute values held in an Item. -/
inductive Value where
  | str (s : String)
  | num (n : Int)
  | bool (b : Bool)
  | null
deriving DecidableEq

/-- Truthiness of a JavaScript value, as tested by `!item.id` in `putItem`:
the empty string, the number 0, `false` and `null` are falsy. -/
def Value.truthy : Value → Bool
  | .str s => s != ""
  | .num n => n != 0
  | .bool b => b
  | .null => false

/-- Predicate recording that a value is a string (the data model types the
`id` attribute as a string). -/
def Value.isStr : Value → Bool
  | .str _ => true
  | _ => false

/-- A JavaScript object rendered as an association list from field names to
values, kept in insertion order, one binding per key. -/
abbrev Obj (α : Type) := List (String × α)

/-- An Item: the sole entity, an open mapping of attribute names to values. -/
abbrev Item := Obj Value

/-- Reading a field of a JavaScript object (`o[k]`): the binding for `k`, or
`none` when the field is absent (JavaScript `undefined`). -/
def Obj.get {α : Type} : Obj α → String → Option α
  | [], _ => none
  | (k0, v0) :: rest, k => if k0 = k then some v0 else Obj.get rest k

/-- Writing a field of a JavaScript object (`o[k] = v`): replaces an existing
binding in place, else appends the new binding, as JavaScript insertion order
does. -/
def Obj.set {α : Type} : Obj α → String → α → Obj α
  | [], k, v => [(k, v)]
  | (k0, v0) :: rest, k, v =>
    if k0 = k then (k, v) :: rest else (k0, v0) :: Obj.set rest k v

/-- The `id` attribute of an Item, when present, is a string value (the data
model of the spec; the table key schema types `id` as `STRING`). -/
def idWellTyped (it : Item) : Bool :=
  match Obj.get it "id" with
  | some v => v.isStr
  | none => true

/-- Contents of the DynamoDB table: records keyed by the string partition key
`id`. -/
abbrev Store := Obj Item

/-- Removal of a key from the table, shared by the `DeleteCommand` model and
by key replacement in the `PutCommand` and `UpdateCommand` models. -/
def tableErase (s : Store) (id : String) : Store :=
  s.filter (fun kv => kv.1 != id)

/-- Model of the DynamoDB `GetCommand`: the record under the key, or `none`
(`res.Item` is `undefined`) when absent. -/
def ddbGet (s : Store) (id : String) : Option Item :=
  Obj.get s id

/-- Model of the DynamoDB `DeleteCommand`: removes the record when present and
succeeds regardless of whether the key existed. -/
def ddbDelete (s : Store) (id : String) : Store :=
  tableErase s id

/-- Model of the DynamoDB `PutCommand`: stores the item under its `id`
attribute, fully replacing any previous record with that key. The table key
schema requires the key attribute to be a string, and DynamoDB rejects an
empty string as a key value. -/
def ddbPut (s : Store) (it : Item) : Except String Store :=
  match Obj.get it "id" with
  | some (Value.str sid) =>
    if sid = "" then .error "ValidationException: empty string key value"
    else .ok ((sid, it) :: tableErase s sid)
  | _ => .error "ValidationException: key type mismatch"

/-- The data produced by the alias-construction loop of `updateItem`
(`src/dynamo.js`): the clause strings pushed onto `expr`, the positional
(name-alias, value-alias) pairing of each clause, and the
`ExpressionAttributeNames` / `ExpressionAttributeValues` objects. -/
structure UpdateParts where
  expr : List String
  pairs : List (String × String)
  names : Obj String
  values : Obj Value
deriving DecidableEq

/-- Embedding of the alias-construction loop of `updateItem`: iterating over
`Object.keys(patch)` with the counter `i` incremented at the top of each
iteration, it pushes the clause string `#ki = :vi`, and records
`names[#ki] = k` and `values[:vi] = patch[k]`. Each alias key is fresh (the
indices are strictly increasing, see `buildFrom_names_fst`), so the object
insertions are rendered as association lists built in iteration order, and
the positional pairing of each clause is carried alongside its rendered
string. -/
def buildFrom : Nat → Item → UpdateParts
  | _, [] => ⟨[], [], [], []⟩
  | i, (k, v) :: rest =>
    let nameKey := "#k" ++ Nat.repr (i + 1)
    let valKey := ":v" ++ Nat.repr (i + 1)
    let r := buildFrom (i + 1) rest
    ⟨(nameKey ++ " = " ++ valKey) :: r.expr, (nameKey, valKey) :: r.pairs,
      (nameKey, k) :: r.names, (valKey, v) :: r.values⟩

/-- The alias construction of `updateItem`, starting from counter 0. -/
def buildUpdate (patch : Item) : UpdateParts :=
  buildFrom 0 patch

/-- The assembled `UpdateExpression` string of `updateItem`:
`"SET "` followed by the clause strings joined with `", "`. -/
def updateExpressionOf (patch : Item) : String :=
  "SET " ++ String.intercalate ", " (buildUpdate patch).expr

/-- An `UpdateCommand` request as `updateItem` sends it: the key, the rendered
`UpdateExpression`, the positional alias pairs its clauses were assembled
from, and the attribute-name and attribute-value maps. -/
structure UpdateCmd where
  key : String
  updateExpression : String
  clauses : List (String × String)
  names : Obj String
  values : Obj Value

/-- Resolution of the aliased `SET` clauses against the attribute-name and
attribute-value maps, as the backend expression evaluation performs it; an
alias missing from its map is a `ValidationException`. -/
def resolveClauses (names : Obj String) (values : Obj Value) :
    List (String × String) → Except String (List (String × Value))
  | [] => .ok []
  | (na, va) :: rest =>
    match Obj.get names na, Obj.get values va with
    | some k, some v => (resolveClauses names values rest).map (fun l => (k, v) :: l)
    | _, _ => .error "ValidationException: undefined expression alias"

/-- Application of resolved `SET` assignments to a record, in clause order. -/
def applySets (base : Item) (sets : List (String × Value)) : Item :=
  sets.foldl (fun it kv => Obj.set it kv.1 kv.2) base

/-- Model of the DynamoDB `UpdateCommand` with a `SET`-only expression, per
the documented `UpdateItem` semantics: a clause-less expression, a `SET` on
the partition key `id`, and overlapping document paths are each rejected with
a `ValidationException`; otherwise the update upserts — when no record exists
under the key, a new record holding just the key attribute is created — and
the `SET` assignments are applied to the addressed record. -/
def ddbUpdate (s : Store) (cmd : UpdateCmd) : Except String Store :=
  match resolveClauses cmd.names cmd.values cmd.clauses with
  | .error e => .error e
  | .ok sets =>
    if sets.isEmpty then
      .error "ValidationException: Invalid UpdateExpression: The expression can not be empty"
    else if sets.any (fun kv => kv.1 == "id") then
      .error "ValidationException: Cannot update attribute id. This attribute is part of the key"
    else if ¬ (sets.map Prod.fst).Nodup then
      .error "ValidationException: Two document paths overlap"
    else
      let base := (ddbGet s cmd.key).getD [("id", Value.str cmd.key)]
      .ok ((cmd.key, applySets base sets) :: tableErase s cmd.key)

/-- Embedding of `getItem` (`src/dynamo.js`): sends a `GetCommand` and
returns `res.Item`; an absent id yields `none`, never an error. -/
def getItem (s : Store) (id : String) : Option Item :=
  ddbGet s id

/-- Embedding of `listItems` (`src/dynamo.js`): sends a `ScanCommand` and
returns all stored records. -/
def listItems (s : Store) : List Item :=
  s.map Prod.snd

/-- Embedding of `putItem` (`src/dynamo.js`): throws `"id is required"` when
`!item.id` holds (the field is absent or falsy), else sends a `PutCommand`
and returns the given item unchanged. -/
def putItem (s : Store) (it : Item) : Except String (Store × Item) :=
  match Obj.get it "id" with
  | none => .error "id is required"
  | some v =>
    if v.truthy then (ddbPut s it).map (fun s' => (s', it))
    else .error "id is required"

/-- Embedding of `updateItem` (`src/dynamo.js`): builds the aliased `SET`
expression from the patch, sends the `UpdateCommand`, then re-reads the
record and returns `getItem(id)`. -/
def updateItem (s : Store) (id : String) (patch : Item) :
    Except String (Store × Option Item) :=
  let parts := buildUpdate patch
  let cmd : UpdateCmd :=
    { key := id, updateExpression := updateExpressionOf patch,
      clauses := parts.pairs, names := parts.names, values := parts.values }
  match ddbUpdate s cmd with
  | .error e => .error e
  | .ok s' => .ok (s', getItem s' id)

/-- Embedding of `deleteItem` (`src/dynamo.js`): sends a `DeleteCommand`,
which always succeeds, and returns the object holding the id. -/
def deleteItem (s : Store) (id : String) : Store × Item :=
  (ddbDelete s id, [("id", Value.str id)])

/-- A JSON response body as the handlers produce one: an item, an item list,
the error envelope with an `error` field, or an empty body. -/
inductive RespBody where
  | item (it : Item)
  | items (l : List Item)
  | errorObj (msg : String)
  | empty
deriving DecidableEq

/-- An HTTP response: status code and JSON body. -/
structure HttpResponse where
  status : Nat
  body : RespBody
deriving DecidableEq

/-- Embedding of the `GET /items/:id` handler (`src/index.js`): 404 with the
`not found` error envelope when `getItem` yields no item, else 200 with the
item. -/
def getItemsIdHandler (s : Store) (id : String) : HttpResponse :=
  match getItem s id with
  | none => ⟨404, .errorObj "not found"⟩
  | some it => ⟨200, .item it⟩

/-- The creation payload built by `POST /items`:
`Object.assign` of an empty object, the request body, and the object holding
the server-generated `id` and `createdAt` — a copy of the body with `id` and
then `createdAt` written over it. -/
def postPayload (body : Item) (genId genTs : String) : Item :=
  Obj.set (Obj.set body "id" (Value.str genId)) "createdAt" (Value.str genTs)

/-- Embedding of the `POST /items` handler, parameterized by the
server-generated `uuidv4()` id and `new Date().toISOString()` timestamp: the
payload is stored via `putItem` and echoed with 201; any thrown error is
caught and surfaced as 500 with the error message in the envelope. -/
def postItemsHandler (s : Store) (body : Item) (genId genTs : String) :
    HttpResponse × Store :=
  match putItem s (postPayload body genId genTs) with
  | .ok (s', it) => (⟨201, .item it⟩, s')
  | .error e => (⟨500, .errorObj e⟩, s)

/-- Embedding of the `PUT /items/:id` handler: `updateItem` with the request
body as the patch; 200 with the returned item on success (a `none` re-read is
`res.json` of `undefined`, an empty body), 500 with the error message on a
thrown error. -/
def putItemsIdHandler (s : Store) (id : String) (body : Item) :
    HttpResponse × Store :=
  match updateItem s id body with
  | .ok (s', some it) => (⟨200, .item it⟩, s')
  | .ok (s', none) => (⟨200, .empty⟩, s')
  | .error e => (⟨500, .errorObj e⟩, s)

/-- Embedding of the `DELETE /items/:id` handler: `deleteItem`, then 204 with
an empty body. -/
def deleteItemsIdHandler (s : Store) (id : String) : HttpResponse × Store :=
  (⟨204, .empty⟩, (deleteItem s id).1)

/-! Helper lemmas: decimal rendering of naturals is injective, so the alias
keys generated by the update-expression builder never collide. -/

/-- Numeric value of a decimal digit character. -/
def digVal (c : Char) : Nat := c.toNat - 48

/-- Numeric value of a decimal digit string. -/
def chVal (l : List Char) : Nat := l.foldl (fun a c => 10 * a + digVal c) 0

theorem toDigitsCore_acc (b f : Nat) : ∀ (n : Nat) (ds : List Char),
    Nat.toDigitsCore b f n ds = Nat.toDigitsCore b f n [] ++ ds := by
  induction f with
  | zero => intro n ds; simp [Nat.toDigitsCore]
  | succ f ih =>
    intro n ds
    simp only [Nat.toDigitsCore]
    by_cases h : n / b = 0
    · simp [h]
    · simp only [h, if_false]
      rw [ih (n / b) [Nat.digitChar (n % b)], ih (n / b) (Nat.digitChar (n % b) :: ds),
        List.append_assoc]
      rfl

theorem toDigitsCore_fuel (f f' n : Nat) (h : n < f) (h' : n < f') :
    Nat.toDigitsCore 10 f n [] = Nat.toDigitsCore 10 f' n [] := by
  induction n using Nat.strong_induction_on generalizing f f' with
  | _ n ih =>
    match f, f' with
    | f + 1, f' + 1 =>
      simp only [Nat.toDigitsCore]
      by_cases hd : n / 10 = 0
      · simp [hd]
      · simp only [hd, if_false]
        rw [toDigitsCore_acc, toDigitsCore_acc 10 f']
        have hlt : n / 10 < n := Nat.div_lt_self (Nat.pos_of_ne_zero (by omega)) (by omega)
        rw [ih (n / 10) hlt f f' (by omega) (by omega)]

theorem chVal_append_singleton (l : List Char) (c : Char) :
    chVal (l ++ [c]) = 10 * chVal l + digVal c := by
  simp [chVal, List.foldl_append]

theorem digVal_digitChar (d : Nat) (h : d < 10) : digVal (Nat.digitChar d) = d := by
  interval_cases d <;> rfl

theorem chVal_toDigits (n : Nat) : chVal (Nat.toDigits 10 n) = n := by
  induction n using Nat.strong_induction_on with
  | _ n ih =>
    unfold Nat.toDigits
    by_cases hd : n / 10 = 0
    · simp only [Nat.toDigitsCore, hd, if_true]
      have hn : n < 10 := by omega
      have hmod : n % 10 = n := Nat.mod_eq_of_lt hn
      simp [chVal, hmod, digVal_digitChar n hn]
    · simp only [Nat.toDigitsCore, hd, if_false]
      rw [toDigitsCore_acc]
      have hlt : n / 10 < n := Nat.div_lt_self (Nat.pos_of_ne_zero (by omega)) (by omega)
      rw [toDigitsCore_fuel n (n / 10 + 1) (n / 10) (by omega) (by omega)]
      rw [chVal_append_singleton]
      rw [show Nat.toDigitsCore 10 (n / 10 + 1) (n / 10) [] = Nat.toDigits 10 (n / 10) from rfl]
      rw [ih (n / 10) hlt]
      rw [digVal_digitChar _ (Nat.mod_lt n (by omega))]
      omega

theorem natRepr_injective : Function.Injective Nat.repr := by
  intro m n h
  have hd : Nat.toDigits 10 m = Nat.toDigits 10 n := by
    have := congrArg String.data h
    simpa [Nat.repr, List.asString] using this
  have := congrArg chVal hd
  rwa [chVal_toDigits, chVal_toDigits] at this

theorem string_append_left_cancel (s a b : String) (h : s ++ a = s ++ b) : a = b := by
  have := congrArg String.data h
  simp only [String.data_append] at this
  exact String.ext (List.append_cancel_left this)

theorem alias_ne (p : String) (i j : Nat) (h : i ≠ j) :
    p ++ Nat.repr i ≠ p ++ Nat.repr j := by
  intro hc
  exact h (natRepr_injective (string_append_left_cancel _ _ _ hc))

theorem aliasFn_injective (p : String) :
    Function.Injective (fun j : Nat => p ++ Nat.repr j) := by
  intro i j h
  by_contra hne
  exact alias_ne p i j hne h

/-! Helper lemmas about the JavaScript-object and table primitives. -/

theorem Obj.get_set_self {α : Type} (o : Obj α) (k : String) (v : α) :
    Obj.get (Obj.set o k v) k = some v := by
  induction o with
  | nil => simp [Obj.set, Obj.get]
  | cons hd t ih =>
    obtain ⟨k0, v0⟩ := hd
    by_cases hk : k0 = k
    · simp [Obj.set, hk, Obj.get]
    · simp [Obj.set, hk, Obj.get, ih]

theorem Obj.get_set_ne {α : Type} (o : Obj α) (k k' : String) (v : α) (h : k' ≠ k) :
    Obj.get (Obj.set o k v) k' = Obj.get o k' := by
  induction o with
  | nil => simp [Obj.set, Obj.get, Ne.symm h]
  | cons hd t ih =>
    obtain ⟨k0, v0⟩ := hd
    by_cases hk : k0 = k
    · subst hk
      simp [Obj.set, Obj.get, Ne.symm h]
    · rw [show Obj.set ((k0, v0) :: t) k v = (k0, v0) :: Obj.set t k v from by
        simp [Obj.set, hk]]
      by_cases hj : k0 = k'
      · simp [Obj.get, hj]
      · simp [Obj.get, hj, ih]

theorem get_tableErase_self (s : Store) (id : String) :
    Obj.get (tableErase s id) id = none := by
  induction s with
  | nil => rfl
  | cons hd t ih =>
    obtain ⟨k0, v0⟩ := hd
    by_cases hk : k0 = id
    · simpa [tableErase, List.filter_cons, hk, bne_self_eq_false] using ih
    · have h1 : tableErase ((k0, v0) :: t) id = (k0, v0) :: tableErase t id := by
        simp [tableErase, List.filter_cons, hk]
      rw [h1]
      simpa [Obj.get, hk] using ih

theorem get_tableErase_ne (s : Store) (id j : String) (h : j ≠ id) :
    Obj.get (tableErase s id) j = Obj.get s j := by
  induction s with
  | nil => rfl
  | cons hd t ih =>
    obtain ⟨k0, v0⟩ := hd
    by_cases hk : k0 = id
    · subst hk
      have h1 : tableErase ((k0, v0) :: t) k0 = tableErase t k0 := by
        simp [tableErase, List.filter_cons]
      rw [h1, ih]
      simp [Obj.get, Ne.symm h]
    · have h1 : tableErase ((k0, v0) :: t) id = (k0, v0) :: tableErase t id := by
        simp [tableErase, List.filter_cons, hk]
      rw [h1]
      by_cases hj : k0 = j
      · simp [Obj.get, hj]
      · simp [Obj.get, hj, ih]

theorem tableErase_idem (s : Store) (id : String) :
    tableErase (tableErase s id) id = tableErase s id := by
  simp [tableErase, List.filter_filter]

/-! Helper lemmas about applying resolved SET assignments. -/

theorem applySets_cons (base : Item) (k : String) (v : Value) (rest : List (String × Value)) :
    applySets base ((k, v) :: rest) = applySets (Obj.set base k v) rest := rfl

theorem get_applySets_not_mem (sets : List (String × Value)) (base : Item) (k : String)
    (h : k ∉ sets.map Prod.fst) :
    Obj.get (applySets base sets) k = Obj.get base k := by
  induction sets generalizing base with
  | nil => rfl
  | cons hd rest ih =>
    obtain ⟨k0, v0⟩ := hd
    simp only [List.map_cons, List.mem_cons] at h
    push_neg at h
    rw [applySets_cons, ih _ h.2, Obj.get_set_ne _ _ _ _ h.1]

theorem get_applySets_mem (sets : List (String × Value)) (base : Item) (k : String) (v : Value)
    (hnodup : (sets.map Prod.fst).Nodup) (h : (k, v) ∈ sets) :
    Obj.get (applySets base sets) k = some v := by
  induction sets generalizing base with
  | nil => cases h
  | cons hd rest ih =>
    obtain ⟨k0, v0⟩ := hd
    simp only [List.map_cons, List.nodup_cons] at hnodup
    rcases List.mem_cons.mp h with heq | hmem
    · cases heq
      rw [applySets_cons, get_applySets_not_mem _ _ _ hnodup.1, Obj.get_set_self]
    · rw [applySets_cons]
      exact ih _ hnodup.2 hmem

/-! Characterization of the alias construction of `updateItem`. -/

theorem buildFrom_cons (i : Nat) (k : String) (v : Value) (rest : Item) :
    buildFrom i ((k, v) :: rest) =
      ⟨("#k" ++ Nat.repr (i + 1) ++ " = " ++ (":v" ++ Nat.repr (i + 1))) ::
          (buildFrom (i + 1) rest).expr,
        ("#k" ++ Nat.repr (i + 1), ":v" ++ Nat.repr (i + 1)) :: (buildFrom (i + 1) rest).pairs,
        ("#k" ++ Nat.repr (i + 1), k) :: (buildFrom (i + 1) rest).names,
        (":v" ++ Nat.repr (i + 1), v) :: (buildFrom (i + 1) rest).values⟩ := rfl

theorem buildFrom_pairs (patch : Item) : ∀ i : Nat,
    (buildFrom i patch).pairs =
      (List.range' (i + 1) patch.length).map
        (fun j => ("#k" ++ Nat.repr j, ":v" ++ Nat.repr j)) := by
  induction patch with
  | nil => intro i; rfl
  | cons hd rest ih =>
    intro i
    obtain ⟨k, v⟩ := hd
    rw [buildFrom_cons]
    show ("#k" ++ Nat.repr (i + 1), ":v" ++ Nat.repr (i + 1)) ::
        (buildFrom (i + 1) rest).pairs = _
    rw [List.length_cons, List.range'_succ, List.map_cons, ih (i + 1)]

theorem buildFrom_names_fst (patch : Item) : ∀ i : Nat,
    (buildFrom i patch).names.map Prod.fst =
      (List.range' (i + 1) patch.length).map (fun j => "#k" ++ Nat.repr j) := by
  induction patch with
  | nil => intro i; rfl
  | cons hd rest ih =>
    intro i
    obtain ⟨k, v⟩ := hd
    rw [buildFrom_cons]
    show ("#k" ++ Nat.repr (i + 1)) :: (buildFrom (i + 1) rest).names.map Prod.fst = _
    rw [List.length_cons, List.range'_succ, List.map_cons, ih (i + 1)]

theorem buildFrom_values_fst (patch : Item) : ∀ i : Nat,
    (buildFrom i patch).values.map Prod.fst =
      (List.range' (i + 1) patch.length).map (fun j => ":v" ++ Nat.repr j) := by
  induction patch with
  | nil => intro i; rfl
  | cons hd rest ih =>
    intro i
    obtain ⟨k, v⟩ := hd
    rw [buildFrom_cons]
    show (":v" ++ Nat.repr (i + 1)) :: (buildFrom (i + 1) rest).values.map Prod.fst = _
    rw [List.length_cons, List.range'_succ, List.map_cons, ih (i + 1)]

theorem buildFrom_names_snd (patch : Item) : ∀ i : Nat,
    (buildFrom i patch).names.map Prod.snd = patch.map Prod.fst := by
  induction patch with
  | nil => intro i; rfl
  | cons hd rest ih =>
    intro i
    obtain ⟨k, v⟩ := hd
    rw [buildFrom_cons]
    show k :: (buildFrom (i + 1) rest).names.map Prod.snd = _
    rw [List.map_cons, ih (i + 1)]

theorem buildFrom_values_snd (patch : Item) : ∀ i : Nat,
    (buildFrom i patch).values.map Prod.snd = patch.map Prod.snd := by
  induction patch with
  | nil => intro i; rfl
  | cons hd rest ih =>
    intro i
    obtain ⟨k, v⟩ := hd
    rw [buildFrom_cons]
    show v :: (buildFrom (i + 1) rest).values.map Prod.snd = _
    rw [List.map_cons, ih (i + 1)]

theorem buildFrom_expr_arity (patch : Item) : ∀ (i : Nat) (patch2 : Item),
    patch2.length = patch.length → (buildFrom i patch2).expr = (buildFrom i patch).expr := by
  induction patch with
  | nil =>
    intro i p2 h
    rw [List.length_nil, List.length_eq_zero] at h
    rw [h]
  | cons hd rest ih =>
    intro i p2 h
    match p2 with
    | [] => simp at h
    | (k2, v2) :: qrest =>
      obtain ⟨k, v⟩ := hd
      simp only [List.length_cons] at h
      rw [buildFrom_cons, buildFrom_cons]
      show _ :: (buildFrom (i + 1) qrest).expr = _ :: (buildFrom (i + 1) rest).expr
      rw [ih (i + 1) qrest (by omega)]

/-! Resolution of the generated aliases recovers exactly the patch. -/

theorem resolveClauses_skip (n0 k0 va0 : String) (w0 : Value)
    (names : Obj String) (values : Obj Value) : ∀ pairs : List (String × String),
    (∀ q ∈ pairs, q.1 ≠ n0) → (∀ q ∈ pairs, q.2 ≠ va0) →
    resolveClauses ((n0, k0) :: names) ((va0, w0) :: values) pairs =
      resolveClauses names values pairs := by
  intro pairs
  induction pairs with
  | nil => intro _ _; rfl
  | cons q rest ih =>
    intro hn hv
    obtain ⟨na, va⟩ := q
    have hna : ¬ n0 = na := fun hc => hn (na, va) (List.mem_cons_self _ _) hc.symm
    have hva : ¬ va0 = va := fun hc => hv (na, va) (List.mem_cons_self _ _) hc.symm
    simp only [resolveClauses, Obj.get, hna, if_false, hva]
    rw [ih (fun q hq => hn q (List.mem_cons_of_mem _ hq))
      (fun q hq => hv q (List.mem_cons_of_mem _ hq))]

theorem buildFrom_pairs_fst_ne (patch : Item) (i : Nat) :
    ∀ q ∈ (buildFrom (i + 1) patch).pairs, q.1 ≠ "#k" ++ Nat.repr (i + 1) := by
  intro q hq
  rw [buildFrom_pairs] at hq
  obtain ⟨j, hj, rfl⟩ := List.mem_map.mp hq
  obtain ⟨t, ht, rfl⟩ := List.mem_range'.mp hj
  exact alias_ne "#k" _ _ (by omega)

theorem buildFrom_pairs_snd_ne (patch : Item) (i : Nat) :
    ∀ q ∈ (buildFrom (i + 1) patch).pairs, q.2 ≠ ":v" ++ Nat.repr (i + 1) := by
  intro q hq
  rw [buildFrom_pairs] at hq
  obtain ⟨j, hj, rfl⟩ := List.mem_map.mp hq
  obtain ⟨t, ht, rfl⟩ := List.mem_range'.mp hj
  exact alias_ne ":v" _ _ (by omega)

theorem resolve_buildFrom (patch : Item) : ∀ i : Nat,
    resolveClauses (buildFrom i patch).names (buildFrom i patch).values
      (buildFrom i patch).pairs = .ok patch := by
  induction patch with
  | nil => intro i; rfl
  | cons hd rest ih =>
    intro i
    obtain ⟨k, v⟩ := hd
    rw [buildFrom_cons]
    show resolveClauses
        (("#k" ++ Nat.repr (i + 1), k) :: (buildFrom (i + 1) rest).names)
        ((":v" ++ Nat.repr (i + 1), v) :: (buildFrom (i + 1) rest).values)
        (("#k" ++ Nat.repr (i + 1), ":v" ++ Nat.repr (i + 1)) ::
          (buildFrom (i + 1) rest).pairs) = _
    simp only [resolveClauses, Obj.get, if_pos rfl]
    rw [resolveClauses_skip _ _ _ _ _ _ _ (buildFrom_pairs_fst_ne rest i)
      (buildFrom_pairs_snd_ne rest i)]
    rw [ih (i + 1)]
    rfl

/-! Characterization of a successful `updateItem` call. -/

theorem updateItem_eq (s : Store) (id : String) (patch : Item) :
    updateItem s id patch =
      match ddbUpdate s ⟨id, updateExpressionOf patch, (buildUpdate patch).pairs,
          (buildUpdate patch).names, (buildUpdate patch).values⟩ with
      | .error e => .error e
      | .ok s' => .ok (s', getItem s' id) := rfl

theorem updateItem_ok (s : Store) (id : String) (patch : Item)
    (hnodup : (patch.map Prod.fst).Nodup) (hne : patch ≠ [])
    (hid : "id" ∉ patch.map Prod.fst) :
    updateItem s id patch =
      .ok ((id, applySets ((ddbGet s id).getD [("id", Value.str id)]) patch) ::
            tableErase s id,
          some (applySets ((ddbGet s id).getD [("id", Value.str id)]) patch)) := by
  have hres : resolveClauses (buildUpdate patch).names (buildUpdate patch).values
      (buildUpdate patch).pairs = .ok patch := resolve_buildFrom patch 0
  have h1 : patch.isEmpty = false := by
    cases patch with
    | nil => exact absurd rfl hne
    | cons hd t => rfl
  have h2 : patch.any (fun kv => kv.1 == "id") = false := by
    apply List.any_eq_false.mpr
    intro kv hkv
    have hne2 : kv.1 ≠ "id" := fun hc => hid (hc ▸ List.mem_map_of_mem Prod.fst hkv)
    simpa using hne2
  rw [updateItem_eq]
  unfold ddbUpdate
  simp only [hres, h1, h2, Bool.false_eq_true, if_false, not_not_intro hnodup]
  simp [getItem, ddbGet, Obj.get]

/-! Characterization of a successful `POST /items` request. -/

theorem get_postPayload_id (body : Item) (genId genTs : String) :
    Obj.get (postPayload body genId genTs) "id" = some (Value.str genId) := by
  unfold postPayload
  rw [Obj.get_set_ne _ _ _ _ (by decide), Obj.get_set_self]

theorem get_postPayload_createdAt (body : Item) (genId genTs : String) :
    Obj.get (postPayload body genId genTs) "createdAt" = some (Value.str genTs) :=
  Obj.get_set_self _ _ _

theorem putItem_postPayload (s : Store) (body : Item) (genId genTs : String)
    (h : genId ≠ "") :
    putItem s (postPayload body genId genTs) =
      .ok ((genId, postPayload body genId genTs) :: tableErase s genId,
        postPayload body genId genTs) := by
  have htr : (Value.str genId).truthy = true := by simp [Value.truthy, h]
  unfold putItem ddbPut
  rw [get_postPayload_id]
  dsimp only
  rw [if_pos htr, if_neg h]
  rfl

theorem postItemsHandler_ok (s : Store) (body : Item) (genId genTs : String)
    (h : genId ≠ "") :
    postItemsHandler s body genId genTs =
      (⟨201, .item (postPayload body genId genTs)⟩,
        (genId, postPayload body genId genTs) :: tableErase s genId) := by
  unfold postItemsHandler
  rw [putItem_postPayload s body genId genTs h]

/-- C6: DELETE /items/:id is idempotent — for every store and id the DELETE
responds 204 with an empty body, a second DELETE of the same id responds 204
and leaves the store exactly as after the first, and a GET /items/:id after
the DELETE responds 404 with the not-found envelope; the delete succeeds
also when the id was never present. -/
theorem C6_delete_idempotent (s : Store) (id : String) :
    (deleteItemsIdHandler s id).1 = ⟨204, .empty⟩
    ∧ (deleteItemsIdHandler (deleteItemsIdHandler s id).2 id).1 = ⟨204, .empty⟩
    ∧ (deleteItemsIdHandler (deleteItemsIdHandler s id).2 id).2 =
        (deleteItemsIdHandler s id).2
    ∧ getItemsIdHandler (deleteItemsIdHandler s id).2 id =
        ⟨404, .errorObj "not found"⟩ := by
  refine ⟨rfl, rfl, ?_, ?_⟩
  · show tableErase (tableErase s id) id = tableErase s id
    exact tableErase_idem s id
  · show getItemsIdHandler (tableErase s id) id = _
    unfold getItemsIdHandler
    rw [show getItem (tableErase s id) id = Obj.get (tableErase s id) id from rfl,
      get_tableErase_self]

/-- C8: GET /items/:id for an id holding no stored Item responds exactly 404
with the not-found error envelope, and `getItem` reports the absence as an
explicit `none` result rather than raising an error. -/
theorem C8_get_absent_404 (s : Store) (id : String) (h : getItem s id = none) :
    getItemsIdHandler s id = ⟨404, .errorObj "not found"⟩ ∧ getItem s id = none := by
  refine ⟨?_, h⟩
  unfold getItemsIdHandler
  rw [h]

/-- C8 witness: the empty store holds no Item under the id "missing". -/
theorem C8_witness :
    getItemsIdHandler [] "missing" = ⟨404, .errorObj "not found"⟩
    ∧ getItem [] "missing" = none :=
  C8_get_absent_404 [] "missing" rfl

/-- C10: the empty patch builds the clause-less expression string `SET `
with empty name and value alias maps; the backend model rejects the
clause-less expression, so PUT /items/:id with an empty object body responds
500 with the backend error and leaves the store unchanged — never a 200. -/
theorem C10_empty_patch_500 (s : Store) (id : String) :
    (buildUpdate ([] : Item)).expr = []
    ∧ updateExpressionOf [] = "SET "
    ∧ (buildUpdate ([] : Item)).names = []
    ∧ (buildUpdate ([] : Item)).values = []
    ∧ updateItem s id [] =
        .error "ValidationException: Invalid UpdateExpression: The expression can not be empty"
    ∧ putItemsIdHandler s id [] =
        (⟨500, .errorObj
            "ValidationException: Invalid UpdateExpression: The expression can not be empty"⟩,
          s) :=
  ⟨rfl, rfl, rfl, rfl, rfl, rfl⟩

/-- C5 (amended): an adapter error raised inside the POST /items handler —
including the ValidationError thrown by `putItem` — is surfaced as a 500
response carrying the error message, with the store unchanged; no 4xx
mapping exists in the handler. -/
theorem C5_adapter_error_maps_to_500 (s : Store) (body : Item)
    (genId genTs e : String)
    (h : putItem s (postPayload body genId genTs) = .error e) :
    postItemsHandler s body genId genTs = (⟨500, .errorObj e⟩, s) := by
  unfold postItemsHandler
  rw [h]

/-- C5 counterexample: when the adapter call of the POST handler fails with
the ValidationError `id is required` (here: an empty generated id, the one
way `putItem` can raise it), the response is 500 — a 5xx status, not 4xx. -/
theorem C5_counterexample :
    putItem [] (postPayload [] "" "t0") = .error "id is required"
    ∧ postItemsHandler [] [] "" "t0" = (⟨500, .errorObj "id is required"⟩, []) :=
  ⟨rfl, rfl⟩

/-- C5 witness: the amended mapping applied at a concrete failing input. -/
theorem C5_witness :
    postItemsHandler [] [("x", Value.num 1)] "" "t0" =
      (⟨500, .errorObj "id is required"⟩, []) :=
  C5_adapter_error_maps_to_500 [] [("x", Value.num 1)] "" "t0" "id is required" rfl

/-- C2 (amended): update of a nonexistent id does not fail — the DynamoDB
UpdateItem upserts, creating a stub record holding the key id plus exactly
the patched fields, storing it and returning it. -/
theorem C2_update_absent_upserts (s : Store) (id : String) (patch : Item)
    (habsent : getItem s id = none)
    (hnodup : (patch.map Prod.fst).Nodup) (hne : patch ≠ [])
    (hid : "id" ∉ patch.map Prod.fst) :
    updateItem s id patch =
      .ok ((id, applySets [("id", Value.str id)] patch) :: tableErase s id,
        some (applySets [("id", Value.str id)] patch)) := by
  have hbase : (ddbGet s id).getD [("id", Value.str id)] = [("id", Value.str id)] := by
    rw [show ddbGet s id = getItem s id from rfl, habsent]
    rfl
  rw [updateItem_ok s id patch hnodup hne hid, hbase]

/-- C2 counterexample: on the empty store the id "a" does not exist, yet
`updateItem` succeeds and creates a record, instead of failing with a
NotFoundError-class condition. -/
theorem C2_counterexample :
    getItem [] "a" = none
    ∧ updateItem [] "a" [("x", Value.num 1)] =
        .ok ([("a", [("id", Value.str "a"), ("x", Value.num 1)])],
          some [("id", Value.str "a"), ("x", Value.num 1)]) :=
  ⟨rfl, rfl⟩

/-- C2 witness: the amended upsert behavior at a concrete absent id. -/
theorem C2_witness :
    updateItem [] "b" [("y", Value.str "w")] =
      .ok (("b", applySets [("id", Value.str "b")] [("y", Value.str "w")]) :: tableErase [] "b",
        some (applySets [("id", Value.str "b")] [("y", Value.str "w")])) :=
  C2_update_absent_upserts [] "b" [("y", Value.str "w")] rfl (by decide) (by decide) (by decide)

theorem buildFrom_expr (patch : Item) : ∀ i : Nat,
    (buildFrom i patch).expr =
      (List.range' (i + 1) patch.length).map
        (fun j => "#k" ++ Nat.repr j ++ " = " ++ (":v" ++ Nat.repr j)) := by
  induction patch with
  | nil => intro i; rfl
  | cons hd rest ih =>
    intro i
    obtain ⟨k, v⟩ := hd
    rw [buildFrom_cons]
    show ("#k" ++ Nat.repr (i + 1) ++ " = " ++ (":v" ++ Nat.repr (i + 1))) ::
        (buildFrom (i + 1) rest).expr = _
    rw [List.length_cons, List.range'_succ, List.map_cons, ih (i + 1)]

/-- C3: POST /items stores and returns an Item whose `id` is the non-empty
server-generated value and whose `createdAt` is the server-generated
timestamp; any `id` or `createdAt` supplied in the client request body is
overwritten by the server-generated values and never used. -/
theorem C3_post_server_generated (s : Store) (body : Item) (genId genTs : String)
    (h : genId ≠ "") :
    (postItemsHandler s body genId genTs).1 =
        ⟨201, .item (postPayload body genId genTs)⟩
    ∧ Obj.get (postPayload body genId genTs) "id" = some (Value.str genId)
    ∧ Obj.get (postPayload body genId genTs) "createdAt" = some (Value.str genTs)
    ∧ getItem (postItemsHandler s body genId genTs).2 genId =
        some (postPayload body genId genTs) := by
  rw [postItemsHandler_ok s body genId genTs h]
  refine ⟨rfl, get_postPayload_id body genId genTs,
    get_postPayload_createdAt body genId genTs, ?_⟩
  simp [getItem, ddbGet, Obj.get]

/-- C3 witness: a creation payload that even tries to smuggle in its own id
and createdAt. -/
theorem C3_witness :
    (postItemsHandler [] [("id", Value.str "evil"), ("createdAt", Value.str "bad")]
        "u1" "t1").1 =
        ⟨201, .item (postPayload [("id", Value.str "evil"), ("createdAt", Value.str "bad")]
          "u1" "t1")⟩
    ∧ Obj.get (postPayload [("id", Value.str "evil"), ("createdAt", Value.str "bad")]
        "u1" "t1") "id" = some (Value.str "u1")
    ∧ Obj.get (postPayload [("id", Value.str "evil"), ("createdAt", Value.str "bad")]
        "u1" "t1") "createdAt" = some (Value.str "t1")
    ∧ getItem (postItemsHandler [] [("id", Value.str "evil"), ("createdAt", Value.str "bad")]
          "u1" "t1").2 "u1" =
        some (postPayload [("id", Value.str "evil"), ("createdAt", Value.str "bad")]
          "u1" "t1") :=
  C3_post_server_generated [] [("id", Value.str "evil"), ("createdAt", Value.str "bad")]
    "u1" "t1" (by decide)

/-- C7: round-trip — an Item created via POST /items and then fetched via
GET /items/:id with the id returned by the POST yields exactly the Item
the POST returned. -/
theorem C7_post_get_roundtrip (s : Store) (body : Item) (genId genTs : String)
    (h : genId ≠ "") :
    (postItemsHandler s body genId genTs).1 =
        ⟨201, .item (postPayload body genId genTs)⟩
    ∧ getItemsIdHandler (postItemsHandler s body genId genTs).2 genId =
        ⟨200, .item (postPayload body genId genTs)⟩ := by
  rw [postItemsHandler_ok s body genId genTs h]
  refine ⟨rfl, ?_⟩
  unfold getItemsIdHandler
  rw [show getItem ((genId, postPayload body genId genTs) :: tableErase s genId) genId =
      some (postPayload body genId genTs) from by simp [getItem, ddbGet, Obj.get]]

/-- C7 witness: the round-trip at a concrete creation payload. -/
theorem C7_witness :
    (postItemsHandler [] [("x", Value.num 7)] "u2" "t2").1 =
        ⟨201, .item (postPayload [("x", Value.num 7)] "u2" "t2")⟩
    ∧ getItemsIdHandler (postItemsHandler [] [("x", Value.num 7)] "u2" "t2").2 "u2" =
        ⟨200, .item (postPayload [("x", Value.num 7)] "u2" "t2")⟩ :=
  C7_post_get_roundtrip [] [("x", Value.num 7)] "u2" "t2" (by decide)

/-- C1 (amended): for every stored Item and every non-empty update payload
that contains neither `id` nor `createdAt`, the partial update performed by
PUT /items/:id leaves `id` and `createdAt` unchanged, sets exactly the
attributes present in the payload to their payload values, leaves every
other attribute untouched, stores the result under the same id, and leaves
every other record of the store untouched. -/
theorem C1_update_frame (s : Store) (id : String) (it0 patch : Item)
    (hfound : getItem s id = some it0)
    (hnodup : (patch.map Prod.fst).Nodup)
    (hne : patch ≠ [])
    (hid : "id" ∉ patch.map Prod.fst)
    (hca : "createdAt" ∉ patch.map Prod.fst) :
    updateItem s id patch =
        .ok ((id, applySets it0 patch) :: tableErase s id, some (applySets it0 patch))
    ∧ Obj.get (applySets it0 patch) "id" = Obj.get it0 "id"
    ∧ Obj.get (applySets it0 patch) "createdAt" = Obj.get it0 "createdAt"
    ∧ (∀ k v, (k, v) ∈ patch → Obj.get (applySets it0 patch) k = some v)
    ∧ (∀ k, k ∉ patch.map Prod.fst → Obj.get (applySets it0 patch) k = Obj.get it0 k)
    ∧ getItem ((id, applySets it0 patch) :: tableErase s id) id =
        some (applySets it0 patch)
    ∧ (∀ j, j ≠ id →
        getItem ((id, applySets it0 patch) :: tableErase s id) j = getItem s j) := by
  have hbase : (ddbGet s id).getD [("id", Value.str id)] = it0 := by
    rw [show ddbGet s id = getItem s id from rfl, hfound]
    rfl
  refine ⟨?_, ?_, ?_, ?_, ?_, ?_, ?_⟩
  · rw [updateItem_ok s id patch hnodup hne hid, hbase]
  · exact get_applySets_not_mem patch it0 "id" hid
  · exact get_applySets_not_mem patch it0 "createdAt" hca
  · intro k v hkv
    exact get_applySets_mem patch it0 k v hnodup hkv
  · intro k hk
    exact get_applySets_not_mem patch it0 k hk
  · simp [getItem, ddbGet, Obj.get]
  · intro j hj
    show Obj.get ((id, applySets it0 patch) :: tableErase s id) j = Obj.get s j
    rw [show Obj.get ((id, applySets it0 patch) :: tableErase s id) j =
        Obj.get (tableErase s id) j from by simp [Obj.get, Ne.symm hj]]
    exact get_tableErase_ne s id j hj

/-- C1 counterexample: PUT with a payload containing `createdAt` mutates the
stored createdAt — the handler passes the request body to `updateItem`
unfiltered, so createdAt is not protected. -/
theorem C1_counterexample :
    updateItem
        [("a", [("id", Value.str "a"), ("createdAt", Value.str "t0"), ("x", Value.num 1)])]
        "a" [("createdAt", Value.str "t1")] =
      .ok ([("a", [("id", Value.str "a"), ("createdAt", Value.str "t1"), ("x", Value.num 1)])],
        some [("id", Value.str "a"), ("createdAt", Value.str "t1"), ("x", Value.num 1)])
    ∧ Obj.get [("id", Value.str "a"), ("createdAt", Value.str "t1"), ("x", Value.num 1)]
        "createdAt" ≠
      Obj.get [("id", Value.str "a"), ("createdAt", Value.str "t0"), ("x", Value.num 1)]
        "createdAt" :=
  ⟨rfl, by decide⟩

/-- C1 witness: the update of the spec example — a stored Item with fields
x and y, patched at y only. -/
theorem C1_witness :
    updateItem
        [("a", [("id", Value.str "a"), ("createdAt", Value.str "t0"), ("x", Value.num 1),
          ("y", Value.num 2)])] "a" [("y", Value.num 9)] =
        .ok (("a", applySets
            [("id", Value.str "a"), ("createdAt", Value.str "t0"), ("x", Value.num 1),
              ("y", Value.num 2)] [("y", Value.num 9)]) ::
            tableErase
              [("a", [("id", Value.str "a"), ("createdAt", Value.str "t0"), ("x", Value.num 1),
                ("y", Value.num 2)])] "a",
          some (applySets
            [("id", Value.str "a"), ("createdAt", Value.str "t0"), ("x", Value.num 1),
              ("y", Value.num 2)] [("y", Value.num 9)]))
    ∧ Obj.get (applySets
        [("id", Value.str "a"), ("createdAt", Value.str "t0"), ("x", Value.num 1),
          ("y", Value.num 2)] [("y", Value.num 9)]) "id" =
      Obj.get [("id", Value.str "a"), ("createdAt", Value.str "t0"), ("x", Value.num 1),
        ("y", Value.num 2)] "id"
    ∧ Obj.get (applySets
        [("id", Value.str "a"), ("createdAt", Value.str "t0"), ("x", Value.num 1),
          ("y", Value.num 2)] [("y", Value.num 9)]) "createdAt" =
      Obj.get [("id", Value.str "a"), ("createdAt", Value.str "t0"), ("x", Value.num 1),
        ("y", Value.num 2)] "createdAt"
    ∧ (∀ k v, (k, v) ∈ ([("y", Value.num 9)] : Item) →
        Obj.get (applySets
          [("id", Value.str "a"), ("createdAt", Value.str "t0"), ("x", Value.num 1),
            ("y", Value.num 2)] [("y", Value.num 9)]) k = some v)
    ∧ (∀ k, k ∉ (([("y", Value.num 9)] : Item).map Prod.fst) →
        Obj.get (applySets
          [("id", Value.str "a"), ("createdAt", Value.str "t0"), ("x", Value.num 1),
            ("y", Value.num 2)] [("y", Value.num 9)]) k =
          Obj.get [("id", Value.str "a"), ("createdAt", Value.str "t0"), ("x", Value.num 1),
            ("y", Value.num 2)] k)
    ∧ getItem (("a", applySets
          [("id", Value.str "a"), ("createdAt", Value.str "t0"), ("x", Value.num 1),
            ("y", Value.num 2)] [("y", Value.num 9)]) ::
          tableErase
            [("a", [("id", Value.str "a"), ("createdAt", Value.str "t0"), ("x", Value.num 1),
              ("y", Value.num 2)])] "a") "a" =
        some (applySets
          [("id", Value.str "a"), ("createdAt", Value.str "t0"), ("x", Value.num 1),
            ("y", Value.num 2)] [("y", Value.num 9)])
    ∧ (∀ j, j ≠ "a" →
        getItem (("a", applySets
            [("id", Value.str "a"), ("createdAt", Value.str "t0"), ("x", Value.num 1),
              ("y", Value.num 2)] [("y", Value.num 9)]) ::
            tableErase
              [("a", [("id", Value.str "a"), ("createdAt", Value.str "t0"), ("x", Value.num 1),
                ("y", Value.num 2)])] "a") j =
          getItem [("a", [("id", Value.str "a"), ("createdAt", Value.str "t0"),
            ("x", Value.num 1), ("y", Value.num 2)])] j) :=
  C1_update_frame
    [("a", [("id", Value.str "a"), ("createdAt", Value.str "t0"), ("x", Value.num 1),
      ("y", Value.num 2)])] "a"
    [("id", Value.str "a"), ("createdAt", Value.str "t0"), ("x", Value.num 1),
      ("y", Value.num 2)]
    [("y", Value.num 9)] rfl (by decide) (by decide) (by decide) (by decide)

/-- C4: `putItem` fails with the ValidationError message `id is required`
exactly when the given item's id attribute is missing or empty; for any
other id it overwrites (creates or fully replaces) the stored record under
that id and returns the given item unchanged. The hypothesis records the
data model: the id attribute, when present, is a string. -/
theorem C4_put_validation (s : Store) (it : Item) (hty : idWellTyped it = true) :
    (putItem s it = .error "id is required" ↔
      (Obj.get it "id" = none ∨ Obj.get it "id" = some (Value.str "")))
    ∧ (∀ sid : String, Obj.get it "id" = some (Value.str sid) → sid ≠ "" →
        putItem s it = .ok ((sid, it) :: tableErase s sid, it)) := by
  unfold idWellTyped at hty
  cases hg : Obj.get it "id" with
  | none =>
    have herr : putItem s it = .error "id is required" := by
      unfold putItem
      rw [hg]
    refine ⟨⟨fun _ => Or.inl rfl, fun _ => herr⟩, ?_⟩
    intro sid hsid hne
    exact absurd hsid (by simp)
  | some v =>
    rw [hg] at hty
    cases v with
    | num n => simp [Value.isStr] at hty
    | bool b => simp [Value.isStr] at hty
    | null => simp [Value.isStr] at hty
    | str sid =>
      by_cases hsid : sid = ""
      · subst hsid
        have herr : putItem s it = .error "id is required" := by
          unfold putItem
          rw [hg]
          simp [Value.truthy]
        refine ⟨⟨fun _ => Or.inr rfl, fun _ => herr⟩, ?_⟩
        intro sid' hsid' hne
        have h2 : Value.str "" = Value.str sid' := Option.some.inj hsid'
        injection h2 with h3
        exact absurd h3.symm hne
      · have hok : putItem s it = .ok ((sid, it) :: tableErase s sid, it) := by
          have htr : (Value.str sid).truthy = true := by simp [Value.truthy, hsid]
          unfold putItem ddbPut
          rw [hg]
          dsimp only
          rw [if_pos htr, if_neg hsid]
          rfl
        refine ⟨⟨fun hcontra => ?_, fun hor => ?_⟩, ?_⟩
        · rw [hok] at hcontra
          exact Except.noConfusion hcontra
        · rcases hor with h1 | h1
          · exact absurd h1 (by simp)
          · have h2 : Value.str sid = Value.str "" := Option.some.inj h1
            injection h2 with h3
            exact absurd h3 hsid
        · intro sid' hsid' hne
          have h2 : Value.str sid = Value.str sid' := Option.some.inj hsid'
          injection h2 with h3
          subst h3
          exact hok

/-- C4 witness: a concrete item with a non-empty string id. -/
theorem C4_witness :
    (putItem [] [("id", Value.str "a"), ("x", Value.num 1)] = .error "id is required" ↔
      (Obj.get [("id", Value.str "a"), ("x", Value.num 1)] "id" = none ∨
        Obj.get [("id", Value.str "a"), ("x", Value.num 1)] "id" = some (Value.str "")))
    ∧ (∀ sid : String,
        Obj.get [("id", Value.str "a"), ("x", Value.num 1)] "id" = some (Value.str sid) →
        sid ≠ "" →
        putItem [] [("id", Value.str "a"), ("x", Value.num 1)] =
          .ok ((sid, [("id", Value.str "a"), ("x", Value.num 1)]) :: tableErase [] sid,
            [("id", Value.str "a"), ("x", Value.num 1)])) :=
  C4_put_validation [] [("id", Value.str "a"), ("x", Value.num 1)] (by decide)

/-- C9: the alias builder of `updateItem` assigns each patch field, by
position, the fresh alias pair (name placeholder, value placeholder) with
strictly increasing indices — unique within the call; the name aliases map
bijectively onto the patch field names, the value aliases carry the patch
values positionally, resolving the aliased clauses recovers exactly the
patch, and the update expression string interpolates no raw field name: it
is fully determined by the number of patch fields. -/
theorem C9_alias_builder (patch : Item) (hnodup : (patch.map Prod.fst).Nodup) :
    (buildUpdate patch).pairs =
        (List.range' 1 patch.length).map
          (fun j => ("#k" ++ Nat.repr j, ":v" ++ Nat.repr j))
    ∧ ((buildUpdate patch).names.map Prod.fst).Nodup
    ∧ ((buildUpdate patch).values.map Prod.fst).Nodup
    ∧ (buildUpdate patch).names.map Prod.fst = (buildUpdate patch).pairs.map Prod.fst
    ∧ (buildUpdate patch).values.map Prod.fst = (buildUpdate patch).pairs.map Prod.snd
    ∧ (buildUpdate patch).names.map Prod.snd = patch.map Prod.fst
    ∧ ((buildUpdate patch).names.map Prod.snd).Nodup
    ∧ (buildUpdate patch).values.map Prod.snd = patch.map Prod.snd
    ∧ resolveClauses (buildUpdate patch).names (buildUpdate patch).values
        (buildUpdate patch).pairs = .ok patch
    ∧ updateExpressionOf patch =
        "SET " ++ String.intercalate ", "
          ((List.range' 1 patch.length).map
            (fun j => "#k" ++ Nat.repr j ++ " = " ++ (":v" ++ Nat.repr j))) := by
  have hpairs := buildFrom_pairs patch 0
  have hnfst := buildFrom_names_fst patch 0
  have hvfst := buildFrom_values_fst patch 0
  have hnsnd := buildFrom_names_snd patch 0
  have hvsnd := buildFrom_values_snd patch 0
  have hexpr := buildFrom_expr patch 0
  refine ⟨?_, ?_, ?_, ?_, ?_, ?_, ?_, ?_, resolve_buildFrom patch 0, ?_⟩
  · simpa using hpairs
  · rw [show (buildUpdate patch).names = (buildFrom 0 patch).names from rfl, hnfst]
    exact (List.nodup_range' _ _).map (aliasFn_injective "#k")
  · rw [show (buildUpdate patch).values = (buildFrom 0 patch).values from rfl, hvfst]
    exact (List.nodup_range' _ _).map (aliasFn_injective ":v")
  · rw [show buildUpdate patch = buildFrom 0 patch from rfl, hnfst, hpairs,
      List.map_map]
    rfl
  · rw [show buildUpdate patch = buildFrom 0 patch from rfl, hvfst, hpairs,
      List.map_map]
    rfl
  · exact hnsnd
  · rw [show (buildUpdate patch).names = (buildFrom 0 patch).names from rfl, hnsnd]
    exact hnodup
  · exact hvsnd
  · unfold updateExpressionOf
    rw [show (buildUpdate patch).expr = (buildFrom 0 patch).expr from rfl, hexpr]

/-- C9 witness: the alias construction at a concrete two-field patch. -/
theorem C9_witness :
    (buildUpdate [("x", Value.num 1), ("y", Value.str "b")]).pairs =
        (List.range' 1 ([("x", Value.num 1), ("y", Value.str "b")] : Item).length).map
          (fun j => ("#k" ++ Nat.repr j, ":v" ++ Nat.repr j))
    ∧ ((buildUpdate [("x", Value.num 1), ("y", Value.str "b")]).names.map Prod.fst).Nodup
    ∧ ((buildUpdate [("x", Value.num 1), ("y", Value.str "b")]).values.map Prod.fst).Nodup
    ∧ (buildUpdate [("x", Value.num 1), ("y", Value.str "b")]).names.map Prod.fst =
        (buildUpdate [("x", Value.num 1), ("y", Value.str "b")]).pairs.map Prod.fst
    ∧ (buildUpdate [("x", Value.num 1), ("y", Value.str "b")]).values.map Prod.fst =
        (buildUpdate [("x", Value.num 1), ("y", Value.str "b")]).pairs.map Prod.snd
    ∧ (buildUpdate [("x", Value.num 1), ("y", Value.str "b")]).names.map Prod.snd =
        ([("x", Value.num 1), ("y", Value.str "b")] : Item).map Prod.fst
    ∧ ((buildUpdate [("x", Value.num 1), ("y", Value.str "b")]).names.map Prod.snd).Nodup
    ∧ (buildUpdate [("x", Value.num 1), ("y", Value.str "b")]).values.map Prod.snd =
        ([("x", Value.num 1), ("y", Value.str "b")] : Item).map Prod.snd
    ∧ resolveClauses (buildUpdate [("x", Value.num 1), ("y", Value.str "b")]).names
        (buildUpdate [("x", Value.num 1), ("y", Value.str "b")]).values
        (buildUpdate [("x", Value.num 1), ("y", Value.str "b")]).pairs =
        .ok [("x", Value.num 1), ("y", Value.str "b")]
    ∧ updateExpressionOf [("x", Value.num 1), ("y", Value.str "b")] =
        "SET " ++ String.intercalate ", "
          ((List.range' 1 ([("x", Value.num 1), ("y", Value.str "b")] : Item).length).map
            (fun j => "#k" ++ Nat.repr j ++ " = " ++ (":v" ++ Nat.repr j))) :=
  C9_alias_builder [("x", Value.num 1), ("y", Value.str "b")] (by decide)
